import Mathlib

/-!
# k8pool: peer discovery from Kubernetes Endpoints

A shallow embedding of `kubernetes.go` (package `k8pool`).

* Go values of type `interface{}` that reach the event handlers or sit in the
  informer store are values of `Obj`.
* The logger and the `OnUpdate` callback are interfaces supplied by the caller;
  a call to one of them is recorded, in order, in the `World`.
* A Go panic ends the running function; `World.panicked` holds its message.
* The informer (client-go) is the environment: it hands each handler the event
  object, and `GetStore().List()` returns the snapshot carried by the
  `Delivery`.
* The store holds no nil pointer, and the `OnUpdate` callback returns normally.
* A call that may block (`New`, `start`) is given the number of polls of
  `informer.HasSynced` that are observed; `Outcome.waiting` means that the call
  has not returned after them.
* `New` returns `*K8sPool` and the methods have receiver `*K8sPool`; the struct
  is declared as `Pool`, and the two names denote the same type here.
-/

namespace K8pool

/-! ## Data model -/

/-- PeerInfo of `kubernetes.go`, one discovered peer. -/
structure PeerInfo where
  DataCenter : String
  IPAddress : String
  HTTPAddress : String
  GRPCAddress : String
  IsOwner : Bool
deriving DecidableEq, Repr

/-- The part of `api_v1.EndpointAddress` the program reads. -/
structure EndpointAddress where
  IP : String
deriving DecidableEq, Repr

/-- The part of `api_v1.EndpointSubset` the program reads. -/
structure EndpointSubset where
  Addresses : List EndpointAddress
deriving DecidableEq, Repr

/-- The part of `api_v1.Endpoints` the program reads: object metadata
(namespace and name, used for the cache key) and the subsets. -/
structure Endpoints where
  Namespace : String
  Name : String
  Subsets : List EndpointSubset
deriving DecidableEq, Repr

/-- Dynamic values (`interface{}`) seen by the handlers and held by the store.
`endpoints` is a non-nil `*api_v1.Endpoints`; `explicitKey` is a
`cache.ExplicitKey`; `tombstone` is a `cache.DeletedFinalStateUnknown` (its
`Obj` field is never read by this program); `other` is any other value, with
its `reflect` type name and, when it implements `metav1.Object`, its namespace
and name. -/
inductive Obj where
  | endpoints (e : Endpoints)
  | explicitKey (key : String)
  | tombstone (key : String)
  | other (typeName : String) (meta : Option (String × String))
deriving DecidableEq, Repr

/-- Config of `kubernetes.go`; `Logger` and `OnUpdate` are recorded in the
`World` instead of being stored. -/
structure Config where
  Namespace : String
  Selector : String
  PodIP : String
  PodPort : String
deriving DecidableEq, Repr

/-- State of a Go `chan struct{}` that is only ever closed. -/
inductive Chan where
  | active
  | closed
deriving DecidableEq, Repr

/-- Result of `rest.InClusterConfig()`. -/
structure RestConfig where
  Host : String
deriving DecidableEq, Repr

/-- Handle of a `*kubernetes.Clientset`. -/
structure Clientset where
  config : RestConfig
deriving DecidableEq, Repr

/-- Handle of the shared index informer built by `start`: the list/watch scope
and the resync period. -/
structure Informer where
  Namespace : String
  LabelSelector : String
  resync : Nat
deriving DecidableEq, Repr

/-- Pool of `kubernetes.go` (the `log` field is the recorded logger). -/
structure Pool where
  informer : Option Informer
  client : Clientset
  conf : Config
  done : Chan
deriving DecidableEq, Repr

/-- An operand of a logger call. -/
inductive LogArg where
  | str (s : String)
  | err (e : Option String)
  | peer (p : PeerInfo)
deriving DecidableEq, Repr

/-- A recorded call of the `logger` interface: method, format and operands. -/
inductive LogCall where
  | Debug (args : List LogArg)
  | Debugf (format : String) (args : List LogArg)
  | Errorf (format : String) (args : List LogArg)
deriving DecidableEq, Repr

/-- What the caller observes: logger calls, the arguments of each `OnUpdate`
invocation in order, and the message of a panic if one was raised. -/
structure World where
  logs : List LogCall
  updates : List (List PeerInfo)
  panicked : Option String
deriving DecidableEq, Repr

/-- The world before anything has run. -/
def World.init : World := { logs := [], updates := [], panicked := none }

/-! ## Library functions used by the program -/

/-- Go `fmt.Sprintf` restricted to the `%s` verb over string operands: each
`%s` is replaced by the next operand, a `%s` without operand prints
`%!s(MISSING)`, any other character is copied. -/
def sprintfAux : List Char → List String → List Char
  | '%' :: 's' :: rest, a :: args => a.data ++ sprintfAux rest args
  | '%' :: 's' :: rest, [] => "%!s(MISSING)".data ++ sprintfAux rest []
  | c :: rest, args => c :: sprintfAux rest args
  | [], [] => []
  | [], a :: args =>
    ("%!(EXTRA " ++ ", ".intercalate ((a :: args).map fun s => "string=" ++ s) ++ ")").data

/-- Go `fmt.Sprintf(format, args...)` for string operands. -/
def Sprintf (format : String) (args : List String) : String :=
  String.mk (sprintfAux format.data args)

/-- Go builtin `close(ch)`: closing a closed channel panics. -/
def closeChan : Chan → Except String Chan
  | .active => .ok .closed
  | .closed => .error "close of closed channel"

/-- The key `namespace/name` of object metadata, or `name` alone when the
namespace is empty (client-go `ObjectName.String`). -/
def objectName (ns name : String) : String :=
  if ns.length > 0 then ns ++ "/" ++ name else name

/-- Model of client-go `cache.MetaNamespaceKeyFunc`, returning Go's pair
`(key, err)`: an explicit key is returned as is, an object with metadata
yields `namespace/name`, anything else is an error. -/
def MetaNamespaceKeyFunc : Obj → String × Option String
  | .explicitKey k => (k, none)
  | .endpoints e => (objectName e.Namespace e.Name, none)
  | .other _ (some (ns, name)) => (objectName ns name, none)
  | .other _ none =>
    ("", some "object has no meta: object does not implement the Object interfaces")
  | .tombstone _ =>
    ("", some "object has no meta: object does not implement the Object interfaces")

/-- Go `reflect.TypeOf(obj).String()`. -/
def typeName : Obj → String
  | .endpoints _ => "*v1.Endpoints"
  | .explicitKey _ => "cache.ExplicitKey"
  | .tombstone _ => "cache.DeletedFinalStateUnknown"
  | .other n _ => n

/-! ## updatePeers -/

/-- The PeerInfo built in the body of the innermost loop of `updatePeers`. -/
def mkPeer (conf : Config) (addr : EndpointAddress) : PeerInfo :=
  let peer : PeerInfo :=
    { DataCenter := ""
      IPAddress := Sprintf "%s" [addr.IP]
      HTTPAddress := Sprintf "http://%s:%s" [addr.IP, conf.PodPort]
      GRPCAddress := Sprintf "%s:%s" [addr.IP, conf.PodPort]
      IsOwner := false }
  if addr.IP = conf.PodIP then { peer with IsOwner := true } else peer

/-- The loop `for _, addr := range s.Addresses`: appends one peer per address
and logs it. -/
def addressLoop (conf : Config) :
    List EndpointAddress → List PeerInfo × List LogCall → List PeerInfo × List LogCall
  | [], acc => acc
  | addr :: rest, (peers, logs) =>
    let peer := mkPeer conf addr
    addressLoop conf rest (peers ++ [peer], logs ++ [.Debugf "Peer: %+v\n" [.peer peer]])

/-- The loop `for _, s := range endpoint.Subsets`. -/
def subsetLoop (conf : Config) :
    List EndpointSubset → List PeerInfo × List LogCall → List PeerInfo × List LogCall
  | [], acc => acc
  | s :: rest, acc => subsetLoop conf rest (addressLoop conf s.Addresses acc)

/-- The loop `for _, obj := range e.informer.GetStore().List()`. When the type
assertion fails the error is logged and execution goes on to
`endpoint.Subsets` with `endpoint == nil`, which panics. The result is the
panic message or the peers, together with the log. -/
def storeLoop (conf : Config) :
    List Obj → List PeerInfo × List LogCall → Except String (List PeerInfo) × List LogCall
  | [], (peers, logs) => (.ok peers, logs)
  | obj :: rest, (peers, logs) =>
    match obj with
    | .endpoints endpoint => storeLoop conf rest (subsetLoop conf endpoint.Subsets (peers, logs))
    | _ =>
      (.error "runtime error: invalid memory address or nil pointer dereference",
        logs ++ [.Errorf "expected type v1.Endpoints got '%s' instead" [.str (typeName obj)]])

/-- The method `updatePeers`, run on the store listing `store`. -/
def updatePeers (e : Pool) (store : List Obj) (w : World) : World :=
  let logs := w.logs ++ [.Debug [.str "Fetching peer list from endpoints API"]]
  match storeLoop e.conf store ([], logs) with
  | (.ok peers, logs) => { w with logs := logs, updates := w.updates ++ [peers] }
  | (.error msg, logs) => { w with logs := logs, panicked := some msg }

/-! ## Event handlers -/

/-- A notification of the informer. -/
inductive Event where
  | add (obj : Obj)
  | update (old new : Obj)
  | delete (obj : Obj)
deriving DecidableEq, Repr

/-- One handler invocation: the event and what `GetStore().List()` returns
while the handler runs. -/
structure Delivery where
  event : Event
  store : List Obj
deriving DecidableEq, Repr

/-- AddFunc registered by `start`. -/
def AddFunc (_e : Pool) (obj : Obj) (w : World) : World :=
  let (key, err) := MetaNamespaceKeyFunc obj
  let w := { w with logs := w.logs ++ [.Debugf "Queue (Add) '%s' - %s" [.str key, .err err]] }
  match err with
  | some msg =>
    { w with logs := w.logs ++ [.Errorf "while calling MetaNamespaceKeyFunc(): %s" [.err (some msg)]] }
  | none => w

/-- UpdateFunc registered by `start`. -/
def UpdateFunc (e : Pool) (obj _new : Obj) (store : List Obj) (w : World) : World :=
  let (key, err) := MetaNamespaceKeyFunc obj
  let w := { w with logs := w.logs ++ [.Debugf "Queue (Update) '%s' - %s" [.str key, .err err]] }
  match err with
  | some msg =>
    { w with logs := w.logs ++ [.Errorf "while calling MetaNamespaceKeyFunc(): %s" [.err (some msg)]] }
  | none => updatePeers e store w

/-- DeleteFunc registered by `start`. -/
def DeleteFunc (e : Pool) (obj : Obj) (store : List Obj) (w : World) : World :=
  let (key, err) := MetaNamespaceKeyFunc obj
  let w := { w with logs := w.logs ++ [.Debugf "Queue (Delete) '%s' - %s" [.str key, .err err]] }
  match err with
  | some msg =>
    { w with logs := w.logs ++ [.Errorf "while calling MetaNamespaceKeyFunc(): %s" [.err (some msg)]] }
  | none => updatePeers e store w

/-- Dispatch of one delivery to the registered handler. -/
def handle (e : Pool) (d : Delivery) (w : World) : World :=
  match d.event with
  | .add obj => AddFunc e obj w
  | .update old new => UpdateFunc e old new d.store w
  | .delete obj => DeleteFunc e obj d.store w

/-- The handlers run one after the other on the informer's delivery path; a
panic in one of them ends the processing. -/
def processEvents (e : Pool) : List Delivery → World → World
  | [], w => w
  | d :: rest, w =>
    let w1 := handle e d w
    match w1.panicked with
    | some _ => w1
    | none => processEvents e rest w1

/-! ## Lifecycle: New, start, Close -/

/-- What the cluster environment supplies to `New`: the results of
`rest.InClusterConfig()` and `kubernetes.NewForConfig`, and the value that
`informer.HasSynced` reports at each successive poll. -/
structure Env where
  InClusterConfig : Except String RestConfig
  NewForConfig : RestConfig → Except String Clientset
  HasSynced : Nat → Bool

/-- How a call that may block ends: it returns, it panics, or it is still
blocked after the polls it was given. -/
inductive Outcome (α : Type) where
  | returned (a : α)
  | panicked (msg : String)
  | waiting
deriving DecidableEq, Repr

/-- The polling loop of client-go `wait.PollImmediateUntil`: at each poll the
condition is evaluated first, and the loop gives up only when the stop channel
is closed. `fuel` is the number of polls observed; `none` means the loop is
still blocked after them. -/
def pollLoop (stopCh : Chan) (hasSynced : Nat → Bool) : Nat → Nat → Option Bool
  | _, 0 => none
  | i, fuel + 1 =>
    if hasSynced i then some true
    else if stopCh = .closed then some false
    else pollLoop stopCh hasSynced (i + 1) fuel

/-- Model of client-go `cache.WaitForCacheSync(stopCh, hasSynced)`, which polls
`hasSynced` through `wait.PollImmediateUntil`: true when the cache synced,
false when the stop channel was closed first. The stop channel is its only way
to give up; there is no time limit. -/
def WaitForCacheSync (stopCh : Chan) (hasSynced : Nat → Bool) (fuel : Nat) : Option Bool :=
  pollLoop stopCh hasSynced 0 fuel

/-- The method `start`: builds the informer, registers the handlers
(`handle`), launches `informer.Run(e.done)` and waits for the initial sync.
Returns the pool and Go's `error` (`none` is `nil`). While `start` waits,
`e.done` keeps its state: the channel is a private field of a pool that `New`
has not returned yet, and neither the informer nor a handler closes it. -/
def start (e : Pool) (env : Env) (fuel : Nat) : Outcome (Pool × Option String) :=
  let informer : Informer :=
    { Namespace := e.conf.Namespace, LabelSelector := e.conf.Selector, resync := 0 }
  let e : Pool := { e with informer := some informer }
  match WaitForCacheSync e.done env.HasSynced fuel with
  | none => .waiting
  | some true => .returned (e, none)
  | some false =>
    match closeChan e.done with
    | .error msg => .panicked msg
    | .ok ch => .returned ({ e with done := ch }, some "timed out waiting for caches to sync")

/-- The constructor `New`, returning Go's pair `(pool, err)`. -/
def New (conf : Config) (env : Env) (fuel : Nat) : Outcome (Option Pool × Option String) :=
  match env.InClusterConfig with
  | .error err => .returned (none, some err)
  | .ok config =>
    match env.NewForConfig config with
    | .error err => .returned (none, some err)
    | .ok client =>
      let pool : Pool := { done := .active, client := client, conf := conf, informer := none }
      match start pool env fuel with
      | .returned (pool, err) => .returned (some pool, err)
      | .panicked msg => .panicked msg
      | .waiting => .waiting

/-- The method `Close`: `close(e.done)`; the error is the panic message. -/
def Close (e : Pool) : Except String Pool :=
  match closeChan e.done with
  | .ok ch => .ok { e with done := ch }
  | .error msg => .error msg

/-- Whether `start` returned an error. -/
def startFailed : Outcome (Pool × Option String) → Bool
  | .returned (_, some _) => true
  | _ => false

/-! ## Specification-side definitions -/

/-- Whether a store entry is an `*api_v1.Endpoints`. -/
def isEndpoints : Obj → Bool
  | .endpoints _ => true
  | _ => false

/-- A store listing whose entries are all Endpoints objects. -/
def wellFormed (store : List Obj) : Bool := store.all isEndpoints

/-- The addresses of one store entry, in subset order then address order. -/
def entryAddresses : Obj → List String
  | .endpoints ep => (ep.Subsets.map fun s => s.Addresses.map fun a => a.IP).flatten
  | _ => []

/-- The addresses observed in a store listing: store enumeration order, then
subset order, then address order. -/
def observedAddresses (store : List Obj) : List String :=
  (store.map entryAddresses).flatten

/-- The PeerInfo the specification prescribes for the address `a`. -/
def specPeer (conf : Config) (a : String) : PeerInfo :=
  { DataCenter := ""
    IPAddress := a
    HTTPAddress := "http://" ++ a ++ ":" ++ conf.PodPort
    GRPCAddress := a ++ ":" ++ conf.PodPort
    IsOwner := decide (a = conf.PodIP) }

/-- The peer list the specification prescribes for a store listing: one
PeerInfo per observed address, in order. -/
def specPeers (conf : Config) (store : List Obj) : List PeerInfo :=
  (observedAddresses store).map (specPeer conf)

/-- The object whose key a handler derives: the object of an add or delete,
the old object of an update. -/
def eventObject : Event → Obj
  | .add obj => obj
  | .update old _ => old
  | .delete obj => obj

/-- Whether `MetaNamespaceKeyFunc` succeeds on an object. -/
def keyDerivable (obj : Obj) : Bool := (MetaNamespaceKeyFunc obj).2.isNone

/-- Whether an event is an update or a delete. -/
def isUpdateOrDelete : Event → Bool
  | .add _ => false
  | .update _ _ => true
  | .delete _ => true

/-- The events on which a handler reaches `updatePeers`. -/
def reconciles (ev : Event) : Bool := isUpdateOrDelete ev && keyDerivable (eventObject ev)

/-! ## Example inputs -/

/-- The example of the specification: two addresses in one subset. -/
def exampleEndpoints : Endpoints :=
  { Namespace := "default", Name := "app",
    Subsets := [{ Addresses := [{ IP := "10.0.0.1" }, { IP := "10.0.0.2" }] }] }

/-- The store listing holding `exampleEndpoints` only. -/
def exampleStore : List Obj := [.endpoints exampleEndpoints]

/-- The configuration of the example: self address 10.0.0.2, port 8080. -/
def exampleConf : Config :=
  { Namespace := "default", Selector := "app=demo", PodIP := "10.0.0.2", PodPort := "8080" }

/-- A cluster environment in which the cache is synced at the first poll. -/
def exampleEnv : Env :=
  { InClusterConfig := .ok { Host := "https://10.96.0.1:443" }
    NewForConfig := fun c => .ok { config := c }
    HasSynced := fun _ => true }

/-- The running pool that `New exampleConf exampleEnv` returns. -/
def examplePool : Pool :=
  { informer := some { Namespace := "default", LabelSelector := "app=demo", resync := 0 }
    client := { config := { Host := "https://10.96.0.1:443" } }
    conf := exampleConf
    done := .active }

/-- The peer list of the specification's example. -/
def examplePeers : List PeerInfo :=
  [ { DataCenter := "", IPAddress := "10.0.0.1", HTTPAddress := "http://10.0.0.1:8080",
      GRPCAddress := "10.0.0.1:8080", IsOwner := false },
    { DataCenter := "", IPAddress := "10.0.0.2", HTTPAddress := "http://10.0.0.2:8080",
      GRPCAddress := "10.0.0.2:8080", IsOwner := true } ]

/-- A listing in which the address 10.0.0.2 occurs in two subsets of one
Endpoints object (as it does when one pod serves two port sets). -/
def duplicateStore : List Obj :=
  [.endpoints
    { Namespace := "default", Name := "app",
      Subsets := [{ Addresses := [{ IP := "10.0.0.1" }, { IP := "10.0.0.2" }] },
                  { Addresses := [{ IP := "10.0.0.2" }] }] }]

/-- A listing with one Endpoints object carrying one address, followed by an
entry of another type. -/
def mixedStore : List Obj :=
  [.endpoints { Namespace := "default", Name := "app",
                Subsets := [{ Addresses := [{ IP := "10.0.0.1" }] }] },
   .other "*v1.Pod" (some ("default", "pod-0"))]


/-- An Endpoints object `app-a` with the single address 10.0.0.1. -/
def endpointsA : Endpoints :=
  { Namespace := "default", Name := "app-a", Subsets := [{ Addresses := [{ IP := "10.0.0.1" }] }] }

/-- An Endpoints object `app-b` with the single address 10.0.0.2. -/
def endpointsB : Endpoints :=
  { Namespace := "default", Name := "app-b", Subsets := [{ Addresses := [{ IP := "10.0.0.2" }] }] }

/-- An Endpoints object `app-c` with the single address 10.0.0.3. -/
def endpointsC : Endpoints :=
  { Namespace := "default", Name := "app-c", Subsets := [{ Addresses := [{ IP := "10.0.0.3" }] }] }

/-- A delete event whose object is a final-state-unknown tombstone, handled
while the store holds `exampleEndpoints`. -/
def tombstoneDelete : Delivery :=
  { event := .delete (.tombstone "default/gone"), store := exampleStore }

/-- An update event of `exampleEndpoints`, handled while the store holds it. -/
def exampleUpdate : Delivery :=
  { event := .update (.endpoints exampleEndpoints) (.endpoints exampleEndpoints),
    store := exampleStore }

/-- An update of `exampleEndpoints`, handled while the store listing is
`mixedStore`. -/
def updateOnMixedStore : Delivery :=
  { event := .update (.endpoints exampleEndpoints) (.endpoints exampleEndpoints),
    store := mixedStore }

/-- A burst: `app-c` is added, `app-a` is deleted, then the deletion of
`app-b` is delivered as a tombstone; the store ends holding `app-c` only. -/
def exampleBurst : List Delivery :=
  [ { event := .add (.endpoints endpointsC),
      store := [.endpoints endpointsA, .endpoints endpointsB, .endpoints endpointsC] },
    { event := .delete (.endpoints endpointsA),
      store := [.endpoints endpointsB, .endpoints endpointsC] },
    { event := .delete (.tombstone "default/app-b"),
      store := [.endpoints endpointsC] } ]

/-- The store listing at the end of `exampleBurst`. -/
def exampleBurstFinal : List Obj := [.endpoints endpointsC]

/-- A cluster environment whose initial list never completes. -/
def neverSyncedEnv : Env :=
  { InClusterConfig := .ok { Host := "https://10.96.0.1:443" }
    NewForConfig := fun c => .ok { config := c }
    HasSynced := fun _ => false }

/-- The pool `examplePool` after its shutdown signal was closed. -/
def closedPool : Pool := { examplePool with done := .closed }

/-- Two calls of `Close` on the same pool, one after the other. -/
def closeTwice (e : Pool) : Except String Pool :=
  match Close e with
  | .ok e1 => Close e1
  | .error msg => .error msg


/-! ## Formatting lemmas -/

theorem Sprintf_s (a : String) : Sprintf "%s" [a] = a := by
  simp [Sprintf, sprintfAux]

theorem Sprintf_http (a p : String) :
    Sprintf "http://%s:%s" [a, p] = "http://" ++ a ++ ":" ++ p := by
  simp [Sprintf, sprintfAux]
  apply String.ext
  simp

theorem Sprintf_grpc (a p : String) : Sprintf "%s:%s" [a, p] = a ++ ":" ++ p := by
  simp [Sprintf, sprintfAux]
  apply String.ext
  simp

theorem mkPeer_eq (conf : Config) (addr : EndpointAddress) :
    mkPeer conf addr = specPeer conf addr.IP := by
  unfold mkPeer specPeer
  by_cases h : addr.IP = conf.PodIP <;>
    simp [h, Sprintf_s, Sprintf_http, Sprintf_grpc]

/-! ## The loops of updatePeers -/

theorem addressLoop_fst (conf : Config) (as : List EndpointAddress)
    (acc : List PeerInfo × List LogCall) :
    (addressLoop conf as acc).1 = acc.1 ++ as.map fun a => specPeer conf a.IP := by
  induction as generalizing acc with
  | nil => simp [addressLoop]
  | cons a rest ih =>
    obtain ⟨peers, logs⟩ := acc
    simp [addressLoop, ih, mkPeer_eq]

theorem subsetLoop_fst (conf : Config) (ss : List EndpointSubset)
    (acc : List PeerInfo × List LogCall) :
    (subsetLoop conf ss acc).1 =
      acc.1 ++ ((ss.map fun s => s.Addresses.map fun a => a.IP).flatten).map (specPeer conf) := by
  induction ss generalizing acc with
  | nil => simp [subsetLoop]
  | cons s rest ih =>
    simp [subsetLoop, ih, addressLoop_fst, List.map_map, Function.comp_def]

theorem storeLoop_fst (conf : Config) (store : List Obj) (h : wellFormed store = true)
    (acc : List PeerInfo × List LogCall) :
    (storeLoop conf store acc).1 = .ok (acc.1 ++ specPeers conf store) := by
  induction store generalizing acc with
  | nil => obtain ⟨peers, logs⟩ := acc; simp [storeLoop, specPeers, observedAddresses]
  | cons obj rest ih =>
    obtain ⟨peers, logs⟩ := acc
    cases obj with
    | endpoints ep =>
      have hrest : wellFormed rest = true := by
        simpa [wellFormed, isEndpoints] using h
      simp [storeLoop, ih hrest, subsetLoop_fst, specPeers, observedAddresses, entryAddresses]
    | explicitKey k => simp [wellFormed, isEndpoints] at h
    | tombstone k => simp [wellFormed, isEndpoints] at h
    | other n m => simp [wellFormed, isEndpoints] at h

/-- On a well-formed listing `updatePeers` does not panic and invokes
`OnUpdate` once, with the prescribed list. -/
theorem updatePeers_wellFormed (e : Pool) (store : List Obj) (w : World)
    (h : wellFormed store = true) :
    (updatePeers e store w).updates = w.updates ++ [specPeers e.conf store] ∧
      (updatePeers e store w).panicked = w.panicked := by
  have hs := storeLoop_fst e.conf store h
    ([], w.logs ++ [.Debug [.str "Fetching peer list from endpoints API"]])
  unfold updatePeers
  dsimp only
  split
  · next peers logs heq =>
    have h1 := congrArg Prod.fst heq
    rw [hs] at h1
    simp only [List.nil_append, Except.ok.injEq] at h1
    simp [h1]
  · next msg logs heq =>
    have h1 := congrArg Prod.fst heq
    rw [hs] at h1
    simp at h1

theorem ownerCount_specPeers (conf : Config) (l : List String) :
    ((l.map (specPeer conf)).filter fun p => p.IsOwner).length = l.count conf.PodIP := by
  induction l with
  | nil => simp
  | cons a rest ih =>
    by_cases h : a = conf.PodIP
    · simp [List.filter_cons, specPeer, h] at ih ⊢
      exact ih
    · have h2 : ¬ (a == conf.PodIP) = true := by simpa using h
      simp [List.filter_cons, specPeer, h, List.count_cons, h2] at ih ⊢
      exact ih

theorem map_IPAddress_specPeers (conf : Config) (l : List String) :
    (l.map (specPeer conf)).map PeerInfo.IPAddress = l := by
  induction l with
  | nil => rfl
  | cons a rest ih => simpa [specPeer] using ih

/-! ## Peer resolution -/

/-- C1: for every store listing whose entries are all Endpoints objects and
every configured PodIP and PodPort, `updatePeers` does not panic and passes to
`OnUpdate`, once, the list holding for each observed address `a` (store order,
then subset order, then address order) the PeerInfo with IPAddress `a`,
HTTPAddress `"http://" + a + ":" + PodPort`, GRPCAddress `a + ":" + PodPort`,
IsOwner `a == PodIP` and empty DataCenter. -/
theorem updatePeers_delivers_one_peer_per_address (e : Pool) (store : List Obj) (w : World)
    (h : wellFormed store = true) :
    (updatePeers e store w).updates =
        w.updates ++
          [(observedAddresses store).map fun a =>
            { DataCenter := ""
              IPAddress := a
              HTTPAddress := "http://" ++ a ++ ":" ++ e.conf.PodPort
              GRPCAddress := a ++ ":" ++ e.conf.PodPort
              IsOwner := decide (a = e.conf.PodIP) }] ∧
      (updatePeers e store w).panicked = w.panicked :=
  updatePeers_wellFormed e store w h

/-- C1 at the example of the specification: addresses 10.0.0.1 and 10.0.0.2
with PodIP 10.0.0.2 and PodPort 8080 yield the two listed peers. -/
theorem updatePeers_delivers_one_peer_per_address_witness :
    wellFormed exampleStore = true ∧
      (updatePeers examplePool exampleStore World.init).updates = [examplePeers] :=
  ⟨by decide,
   (updatePeers_delivers_one_peer_per_address examplePool exampleStore World.init
      (by decide)).1.trans (by decide)⟩

/-- C2 as stated fails: with the address 10.0.0.2 in two subsets the delivered
list repeats it, and two entries are owners. -/
theorem duplicate_addresses_are_not_collapsed :
    wellFormed duplicateStore = true ∧
      ¬ (∀ peers ∈ (updatePeers examplePool duplicateStore World.init).updates,
          (peers.map PeerInfo.IPAddress).Nodup ∧
            (peers.filter fun p => p.IsOwner).length ≤ 1) := by
  decide

/-- C2 amended: on a well-formed listing the delivered list holds one PeerInfo
per observed address occurrence, duplicates kept: its IPAddress values are the
observed addresses in order, the number of owners is the number of occurrences
of PodIP; hence the IPAddress values are pairwise distinct and at most one
entry is owner when the observed addresses are pairwise distinct, and no entry
is owner when PodIP is not observed. -/
theorem updatePeers_one_peer_per_occurrence (e : Pool) (store : List Obj) (w : World)
    (h : wellFormed store = true) :
    ∃ peers, (updatePeers e store w).updates = w.updates ++ [peers] ∧
      peers.map PeerInfo.IPAddress = observedAddresses store ∧
      (peers.filter fun p => p.IsOwner).length = (observedAddresses store).count e.conf.PodIP ∧
      ((observedAddresses store).Nodup →
        (peers.map PeerInfo.IPAddress).Nodup ∧ (peers.filter fun p => p.IsOwner).length ≤ 1) ∧
      (e.conf.PodIP ∉ observedAddresses store → (peers.filter fun p => p.IsOwner) = []) := by
  refine ⟨specPeers e.conf store, (updatePeers_wellFormed e store w h).1, ?_, ?_, ?_, ?_⟩
  · exact map_IPAddress_specPeers e.conf _
  · exact ownerCount_specPeers e.conf _
  · intro hnd
    refine ⟨?_, ?_⟩
    · rw [specPeers, map_IPAddress_specPeers]; exact hnd
    · rw [specPeers, ownerCount_specPeers]
      exact List.nodup_iff_count_le_one.mp hnd _
  · intro hnot
    apply List.eq_nil_of_length_eq_zero
    rw [specPeers, ownerCount_specPeers]
    exact List.count_eq_zero_of_not_mem hnot

/-- C2 amended, at the listing with a repeated address. -/
theorem updatePeers_one_peer_per_occurrence_witness :
    wellFormed duplicateStore = true ∧
      ∃ peers, (updatePeers examplePool duplicateStore World.init).updates =
          World.init.updates ++ [peers] ∧
        peers.map PeerInfo.IPAddress = observedAddresses duplicateStore ∧
        (peers.filter fun p => p.IsOwner).length =
          (observedAddresses duplicateStore).count examplePool.conf.PodIP ∧
        ((observedAddresses duplicateStore).Nodup →
          (peers.map PeerInfo.IPAddress).Nodup ∧
            (peers.filter fun p => p.IsOwner).length ≤ 1) ∧
        (examplePool.conf.PodIP ∉ observedAddresses duplicateStore →
          (peers.filter fun p => p.IsOwner) = []) :=
  ⟨by decide,
   updatePeers_one_peer_per_occurrence examplePool duplicateStore World.init (by decide)⟩

theorem storeLoop_malformed (conf : Config) (eps : List Endpoints) (obj : Obj)
    (rest : List Obj) (h : isEndpoints obj = false) (acc : List PeerInfo × List LogCall) :
    (storeLoop conf (eps.map Obj.endpoints ++ obj :: rest) acc).1 =
      .error "runtime error: invalid memory address or nil pointer dereference" := by
  induction eps generalizing acc with
  | nil =>
    obtain ⟨peers, logs⟩ := acc
    cases obj <;> simp [storeLoop, isEndpoints] at h ⊢
  | cons ep tl ih =>
    obtain ⟨peers, logs⟩ := acc
    simp only [List.map_cons, List.cons_append, storeLoop]
    exact ih _

/-- On a listing with an entry that is not an Endpoints object `updatePeers`
panics and does not invoke `OnUpdate`. -/
theorem updatePeers_malformed (e : Pool) (eps : List Endpoints) (obj : Obj)
    (rest : List Obj) (h : isEndpoints obj = false) (w : World) :
    (updatePeers e (eps.map Obj.endpoints ++ obj :: rest) w).panicked =
        some "runtime error: invalid memory address or nil pointer dereference" ∧
      (updatePeers e (eps.map Obj.endpoints ++ obj :: rest) w).updates = w.updates := by
  have hs := storeLoop_malformed e.conf eps obj rest h
    ([], w.logs ++ [.Debug [.str "Fetching peer list from endpoints API"]])
  unfold updatePeers
  dsimp only
  split
  · next peers logs heq =>
    have h1 := congrArg Prod.fst heq
    rw [hs] at h1
    simp at h1
  · next msg logs heq =>
    have h1 := congrArg Prod.fst heq
    rw [hs] at h1
    simp only [Except.error.injEq] at h1
    simp [h1]

/-- C3 fails on the code: with one well-formed entry carrying one address
followed by an entry of another type, `updatePeers` logs the type error, then
panics on the nil `endpoint`; `OnUpdate` is never invoked, so the one PeerInfo
of the well-formed entry is not delivered. The same happens on every listing
that holds an entry of another type. -/
theorem updatePeers_panics_on_malformed_entry :
    (updatePeers examplePool mixedStore World.init).panicked =
        some "runtime error: invalid memory address or nil pointer dereference" ∧
      (updatePeers examplePool mixedStore World.init).updates = [] ∧
      (updatePeers examplePool mixedStore World.init).logs.getLast? =
        some (.Errorf "expected type v1.Endpoints got '%s' instead" [.str "*v1.Pod"]) ∧
      (specPeers examplePool.conf mixedStore).length = 1 ∧
      ∀ (e : Pool) (eps : List Endpoints) (n : String) (m : Option (String × String))
        (rest : List Obj) (w : World),
        (updatePeers e (eps.map Obj.endpoints ++ Obj.other n m :: rest) w).panicked =
            some "runtime error: invalid memory address or nil pointer dereference" ∧
          (updatePeers e (eps.map Obj.endpoints ++ Obj.other n m :: rest) w).updates =
            w.updates := by
  refine ⟨by decide, by decide, by decide, by decide, ?_⟩
  intro e eps n m rest w
  exact updatePeers_malformed e eps (Obj.other n m) rest rfl w

/-! ## Event handlers -/

theorem AddFunc_unchanged (e : Pool) (obj : Obj) (w : World) :
    (AddFunc e obj w).updates = w.updates ∧ (AddFunc e obj w).panicked = w.panicked := by
  unfold AddFunc
  rcases MetaNamespaceKeyFunc obj with ⟨key, err⟩
  cases err <;> simp

theorem UpdateFunc_key_error (e : Pool) (obj new : Obj) (store : List Obj) (w : World)
    (h : keyDerivable obj = false) :
    (UpdateFunc e obj new store w).updates = w.updates ∧
      (UpdateFunc e obj new store w).panicked = w.panicked := by
  unfold UpdateFunc
  unfold keyDerivable at h
  generalize MetaNamespaceKeyFunc obj = r at h ⊢
  obtain ⟨key, err⟩ := r
  cases err <;> simp at h ⊢

theorem UpdateFunc_key_ok (e : Pool) (obj new : Obj) (store : List Obj) (w : World)
    (h : keyDerivable obj = true) (hs : wellFormed store = true) :
    (UpdateFunc e obj new store w).updates = w.updates ++ [specPeers e.conf store] ∧
      (UpdateFunc e obj new store w).panicked = w.panicked := by
  unfold UpdateFunc
  unfold keyDerivable at h
  generalize MetaNamespaceKeyFunc obj = r at h ⊢
  obtain ⟨key, err⟩ := r
  cases err with
  | some msg => simp at h
  | none => exact updatePeers_wellFormed e store _ hs

theorem DeleteFunc_key_error (e : Pool) (obj : Obj) (store : List Obj) (w : World)
    (h : keyDerivable obj = false) :
    (DeleteFunc e obj store w).updates = w.updates ∧
      (DeleteFunc e obj store w).panicked = w.panicked := by
  unfold DeleteFunc
  unfold keyDerivable at h
  generalize MetaNamespaceKeyFunc obj = r at h ⊢
  obtain ⟨key, err⟩ := r
  cases err <;> simp at h ⊢

theorem DeleteFunc_key_ok (e : Pool) (obj : Obj) (store : List Obj) (w : World)
    (h : keyDerivable obj = true) (hs : wellFormed store = true) :
    (DeleteFunc e obj store w).updates = w.updates ++ [specPeers e.conf store] ∧
      (DeleteFunc e obj store w).panicked = w.panicked := by
  unfold DeleteFunc
  unfold keyDerivable at h
  generalize MetaNamespaceKeyFunc obj = r at h ⊢
  obtain ⟨key, err⟩ := r
  cases err with
  | some msg => simp at h
  | none => exact updatePeers_wellFormed e store _ hs

/-- An event that does not reach `updatePeers` leaves the callback alone. -/
theorem handle_skip (e : Pool) (d : Delivery) (w : World) (h : reconciles d.event = false) :
    (handle e d w).updates = w.updates ∧ (handle e d w).panicked = w.panicked := by
  obtain ⟨ev, store⟩ := d
  cases ev with
  | add obj => exact AddFunc_unchanged e obj w
  | update old new =>
    exact UpdateFunc_key_error e old new store w (by simpa [reconciles, isUpdateOrDelete, eventObject] using h)
  | delete obj =>
    exact DeleteFunc_key_error e obj store w (by simpa [reconciles, isUpdateOrDelete, eventObject] using h)

/-- An event that reaches `updatePeers` on a well-formed listing invokes the
callback once, with the prescribed list. -/
theorem handle_reconcile (e : Pool) (d : Delivery) (w : World)
    (h : reconciles d.event = true) (hs : wellFormed d.store = true) :
    (handle e d w).updates = w.updates ++ [specPeers e.conf d.store] ∧
      (handle e d w).panicked = w.panicked := by
  obtain ⟨ev, store⟩ := d
  cases ev with
  | add obj => simp [reconciles, isUpdateOrDelete] at h
  | update old new =>
    exact UpdateFunc_key_ok e old new store w
      (by simpa [reconciles, isUpdateOrDelete, eventObject] using h) hs
  | delete obj =>
    exact DeleteFunc_key_ok e obj store w
      (by simpa [reconciles, isUpdateOrDelete, eventObject] using h) hs

/-- A burst of add events never invokes the callback and never panics. -/
theorem processEvents_adds (e : Pool) (store : List Obj) (objs : List Obj) (w : World) :
    (processEvents e (objs.map fun o => { event := .add o, store := store }) w).updates =
        w.updates ∧
      (processEvents e (objs.map fun o => { event := .add o, store := store }) w).panicked =
        w.panicked := by
  induction objs generalizing w with
  | nil => simp [processEvents]
  | cons o rest ih =>
    have ha := AddFunc_unchanged e o w
    simp only [List.map_cons, processEvents, handle]
    split
    · exact ha
    · rw [(ih (AddFunc e o w)).1, (ih (AddFunc e o w)).2]
      exact ha

/-- A burst none of whose reconciling events sees a malformed listing runs to
its end: processing a longer burst is processing the rest after the start. -/
theorem processEvents_append (e : Pool) (ds rest : List Delivery) (w : World)
    (hw : w.panicked = none)
    (h : ∀ x ∈ ds, reconciles x.event = true → wellFormed x.store = true) :
    (processEvents e ds w).panicked = none ∧
      processEvents e (ds ++ rest) w = processEvents e rest (processEvents e ds w) := by
  induction ds generalizing w with
  | nil => simp [processEvents, hw]
  | cons d tl ih =>
    have hp : (handle e d w).panicked = none := by
      cases hr : reconciles d.event with
      | false => rw [(handle_skip e d w hr).2]; exact hw
      | true =>
        rw [(handle_reconcile e d w hr (h d (List.mem_cons_self _ _) hr)).2]; exact hw
    have htl : ∀ x ∈ tl, reconciles x.event = true → wellFormed x.store = true :=
      fun x hx => h x (List.mem_cons_of_mem _ hx)
    simp only [List.cons_append, processEvents, hp]
    exact ih (handle e d w) hp htl

theorem processEvents_single (e : Pool) (d : Delivery) (w : World) :
    processEvents e [d] w = handle e d w := by
  simp only [processEvents]
  split <;> rfl

/-- C4 as stated fails: a delete event whose object is a tombstone is an
update-or-delete event, yet its handler returns without invoking `OnUpdate`. -/
theorem tombstone_delete_invokes_nothing :
    isUpdateOrDelete tombstoneDelete.event = true ∧
      wellFormed tombstoneDelete.store = true ∧
      (handle examplePool tombstoneDelete World.init).updates = [] ∧
      ¬ ((handle examplePool tombstoneDelete World.init).updates =
          World.init.updates ++ [specPeers examplePool.conf tombstoneDelete.store]) := by
  decide

/-- C4 amended: for every update event and every delete event whose object
(the old object, for an update) has a derivable namespace/name key, handled
while the store holds only Endpoints objects, the handler invokes `OnUpdate`
exactly once before it returns, with the peer list computed from the full store
listing at that moment, and does not panic. -/
theorem handler_reconciles_once_when_key_derivable (e : Pool) (d : Delivery) (w : World)
    (hev : isUpdateOrDelete d.event = true)
    (hkey : keyDerivable (eventObject d.event) = true)
    (hs : wellFormed d.store = true) :
    (handle e d w).updates = w.updates ++ [specPeers e.conf d.store] ∧
      (handle e d w).panicked = w.panicked :=
  handle_reconcile e d w (by simp [reconciles, hev, hkey]) hs

/-- C4 amended, at an update of the example Endpoints object. -/
theorem handler_reconciles_once_when_key_derivable_witness :
    isUpdateOrDelete exampleUpdate.event = true ∧
      keyDerivable (eventObject exampleUpdate.event) = true ∧
      wellFormed exampleUpdate.store = true ∧
      (handle examplePool exampleUpdate World.init).updates =
        World.init.updates ++ [specPeers examplePool.conf exampleUpdate.store] ∧
      (handle examplePool exampleUpdate World.init).panicked = World.init.panicked :=
  ⟨by decide, by decide, by decide,
   handler_reconciles_once_when_key_derivable examplePool exampleUpdate World.init
     (by decide) (by decide) (by decide)⟩

/-- C5 fails on the code: `New` succeeds and returns the running pool, the
bootstrap delivers the add event of the Endpoints object present at startup,
and `OnUpdate` is not invoked; no burst of add events ever invokes it. -/
theorem bootstrap_adds_never_reconcile :
    New exampleConf exampleEnv 1 = .returned (some examplePool, none) ∧
      (processEvents examplePool
          [{ event := .add (.endpoints exampleEndpoints), store := exampleStore }]
          World.init).updates = [] ∧
      ∀ (store objs : List Obj),
        (processEvents examplePool (objs.map fun o => { event := .add o, store := store })
          World.init).updates = [] := by
  refine ⟨by decide, by decide, ?_⟩
  intro store objs
  exact (processEvents_adds examplePool store objs World.init).1

/-- C6 as stated fails: in `exampleBurst` the last event is a tombstone delete,
which does not reconcile; the only list delivered is the one computed before
`app-b` was removed, and no delivered list equals the resolver output on the
final store. -/
theorem burst_ending_in_tombstone_misses_final_state :
    (processEvents examplePool exampleBurst World.init).updates =
        [specPeers examplePool.conf [.endpoints endpointsB, .endpoints endpointsC]] ∧
      ¬ (specPeers examplePool.conf exampleBurstFinal ∈
          (processEvents examplePool exampleBurst World.init).updates) ∧
      (processEvents examplePool exampleBurst World.init).updates.getLast? ≠
        some (specPeers examplePool.conf exampleBurstFinal) := by
  decide

/-- C6 amended: for every finite burst handled by a pool that has not
panicked, in which every reconciling event sees a store of Endpoints objects
only, and whose last event is an update or a delete with a derivable key, the
last list passed to `OnUpdate` when the last event has been handled is the
resolver output on the store listing `M` of that last event. -/
theorem burst_last_delivery_is_final_state (e : Pool) (ds : List Delivery) (d : Delivery)
    (w : World) (hw : w.panicked = none)
    (hds : ∀ x ∈ ds, reconciles x.event = true → wellFormed x.store = true)
    (hev : isUpdateOrDelete d.event = true)
    (hkey : keyDerivable (eventObject d.event) = true)
    (hs : wellFormed d.store = true) :
    (processEvents e (ds ++ [d]) w).updates.getLast? = some (specPeers e.conf d.store) ∧
      (processEvents e (ds ++ [d]) w).panicked = none := by
  obtain ⟨hp, happ⟩ := processEvents_append e ds [d] w hw hds
  have hr : reconciles d.event = true := by simp [reconciles, hev, hkey]
  obtain ⟨hu, hq⟩ := handle_reconcile e d (processEvents e ds w) hr hs
  rw [happ, processEvents_single, hu, hq]
  exact ⟨by simp, hp⟩

/-- C6 amended, at the burst that adds `app-c` and then deletes `app-a`. -/
theorem burst_last_delivery_is_final_state_witness :
    (processEvents examplePool
        ([{ event := .add (.endpoints endpointsC),
            store := [.endpoints endpointsA, .endpoints endpointsC] }] ++
          [{ event := .delete (.endpoints endpointsA), store := exampleBurstFinal }])
        World.init).updates.getLast? = some (specPeers examplePool.conf exampleBurstFinal) ∧
      (processEvents examplePool
        ([{ event := .add (.endpoints endpointsC),
            store := [.endpoints endpointsA, .endpoints endpointsC] }] ++
          [{ event := .delete (.endpoints endpointsA), store := exampleBurstFinal }])
        World.init).panicked = none :=
  burst_last_delivery_is_final_state examplePool
    [{ event := .add (.endpoints endpointsC),
       store := [.endpoints endpointsA, .endpoints endpointsC] }]
    { event := .delete (.endpoints endpointsA), store := exampleBurstFinal }
    World.init (by decide) (by decide) (by decide) (by decide) (by decide)

/-- On a store that holds only Endpoints objects whenever the handler reaches
`updatePeers`, the handler adds one `OnUpdate` invocation if the event is an
update or a delete with a derivable key, none otherwise. -/
theorem handle_count_of_wellFormed (e : Pool) (d : Delivery) (w : World)
    (hs : reconciles d.event = true → wellFormed d.store = true) :
    (handle e d w).updates.length =
        w.updates.length +
          (if isUpdateOrDelete d.event = true ∧ keyDerivable (eventObject d.event) = true
            then 1 else 0) ∧
      (handle e d w).panicked = w.panicked := by
  cases hr : reconciles d.event with
  | false =>
    have hc : ¬ (isUpdateOrDelete d.event = true ∧ keyDerivable (eventObject d.event) = true) := by
      intro hc
      simp [reconciles, hc.1, hc.2] at hr
    exact ⟨by simp [(handle_skip e d w hr).1, hc], (handle_skip e d w hr).2⟩
  | true =>
    have hc : isUpdateOrDelete d.event = true ∧ keyDerivable (eventObject d.event) = true := by
      simpa [reconciles] using hr
    obtain ⟨hu, hp⟩ := handle_reconcile e d w hr (hs hr)
    exact ⟨by simp [hu, hc], hp⟩

theorem wellFormed_map_endpoints (eps : List Endpoints) :
    wellFormed (eps.map Obj.endpoints) = true := by
  induction eps with
  | nil => rfl
  | cons ep tl ih => simpa [wellFormed, isEndpoints] using ih

/-- C10 fails on the code: an update event whose old object has a derivable
key, handled while the store listing holds an entry that is not an Endpoints
object, causes no `OnUpdate` invocation instead of one: the handler reaches
`updatePeers`, which panics on that entry before the callback. An add event
causes none on any store, and on every store of Endpoints objects each event
causes the number the claim states. -/
theorem handler_count_breaks_on_malformed_store :
    isUpdateOrDelete updateOnMixedStore.event = true ∧
      keyDerivable (eventObject updateOnMixedStore.event) = true ∧
      (handle examplePool updateOnMixedStore World.init).updates.length = 0 ∧
      (handle examplePool updateOnMixedStore World.init).panicked =
        some "runtime error: invalid memory address or nil pointer dereference" ∧
      (∀ (e : Pool) (obj : Obj) (store : List Obj) (w : World),
        (handle e { event := .add obj, store := store } w).updates = w.updates) ∧
      ∀ (e : Pool) (ev : Event) (eps : List Endpoints) (w : World),
        (handle e { event := ev, store := eps.map Obj.endpoints } w).updates.length =
            w.updates.length +
              (if isUpdateOrDelete ev = true ∧ keyDerivable (eventObject ev) = true
                then 1 else 0) ∧
          (handle e { event := ev, store := eps.map Obj.endpoints } w).panicked =
            w.panicked := by
  refine ⟨by decide, by decide, by decide, by decide, ?_, ?_⟩
  · intro e obj store w
    exact (AddFunc_unchanged e obj w).1
  · intro e ev eps w
    exact handle_count_of_wellFormed e { event := ev, store := eps.map Obj.endpoints } w
      (fun _ => wellFormed_map_endpoints eps)

/-! ## Lifecycle -/

theorem pollLoop_never_synced (i fuel : Nat) :
    pollLoop .active (fun _ => false) i fuel = none := by
  induction fuel generalizing i with
  | zero => rfl
  | succ n ih => simp [pollLoop, ih]

theorem pollLoop_active (hasSynced : Nat → Bool) (i fuel : Nat) :
    pollLoop .active hasSynced i fuel ≠ some false := by
  induction fuel generalizing i with
  | zero => simp [pollLoop]
  | succ n ih =>
    by_cases h : hasSynced i = true
    · simp [pollLoop, h]
    · simpa [pollLoop, h] using ih (i + 1)

theorem pollLoop_closed (i fuel : Nat) :
    pollLoop .closed (fun _ => false) i (fuel + 1) = some false := by
  simp [pollLoop]

/-- Started on an open shutdown signal, `start` either is still blocked or
returns without error, the signal still open: the failure path is not taken. -/
theorem start_active (e : Pool) (env : Env) (fuel : Nat) (hd : e.done = .active) :
    start e env fuel = .waiting ∨
      ∃ q, start e env fuel = .returned (q, none) ∧ q.done = .active := by
  unfold start WaitForCacheSync
  dsimp only
  rw [hd]
  rcases hpl : pollLoop .active env.HasSynced 0 fuel with _ | b
  · exact Or.inl rfl
  · cases b with
    | false => exact absurd hpl (pollLoop_active env.HasSynced 0 fuel)
    | true => exact Or.inr ⟨_, rfl, rfl⟩

/-- The pool a successful `New` returns is running: its shutdown signal is
not closed. -/
theorem New_running (conf : Config) (env : Env) (fuel : Nat) (p : Pool)
    (h : New conf env fuel = .returned (some p, none)) : p.done = .active := by
  unfold New at h
  rcases hc : env.InClusterConfig with err | config
  · simp [hc] at h
  · rcases hn : env.NewForConfig config with err | client
    · simp [hc, hn] at h
    · simp only [hc, hn] at h
      rcases start_active
          { done := .active, client := client, conf := conf, informer := none } env fuel rfl
        with hw | ⟨q, hq, hqd⟩
      · simp [hw] at h
      · simp only [hq, Outcome.returned.injEq, Prod.mk.injEq, Option.some.injEq, and_true] at h
        rw [← h]
        exact hqd

/-- C7 fails on the code: on the open shutdown signal that `New` creates,
`start` never returns an error, whatever the environment and however long it is
observed; when the initial sync never completes `New` is still blocked after
any number of polls; and `start` takes the failure path only on a shutdown
signal that is already closed, where `close(e.done)` panics. -/
theorem start_wait_is_unbounded :
    (∀ (e : Pool) (env : Env) (fuel : Nat),
        startFailed (start { e with done := .active } env fuel) = false) ∧
      (∀ fuel : Nat, New exampleConf neverSyncedEnv fuel = .waiting) ∧
      (∀ fuel : Nat,
        start closedPool neverSyncedEnv (fuel + 1) = .panicked "close of closed channel") := by
  refine ⟨?_, ?_, ?_⟩
  · intro e env fuel
    rcases start_active { e with done := .active } env fuel rfl with hw | ⟨q, hq, _⟩
    · rw [hw]; rfl
    · rw [hq]; rfl
  · intro fuel
    simp [New, start, WaitForCacheSync, neverSyncedEnv, pollLoop_never_synced]
  · intro fuel
    simp [start, WaitForCacheSync, neverSyncedEnv, closedPool, pollLoop_closed, closeChan]

/-- C8 as stated fails: `New` returns the running pool `examplePool`, the first
`Close` succeeds, and the second `Close` on the same pool panics. -/
theorem second_Close_panics :
    New exampleConf exampleEnv 1 = .returned (some examplePool, none) ∧
      Close examplePool = .ok closedPool ∧
      closeTwice examplePool = .error "close of closed channel" := by
  refine ⟨by decide, rfl, rfl⟩

/-- C8 amended: on a running pool the first `Close` does not panic, closes the
shutdown signal and leaves the config, client and informer handle unchanged; a
second `Close` on the same pool is not guarded and panics with
"close of closed channel". -/
theorem Close_once_then_panics (conf : Config) (env : Env) (fuel : Nat) (p : Pool)
    (h : New conf env fuel = .returned (some p, none)) :
    ∃ q, Close p = .ok q ∧ q.done = .closed ∧ q.conf = p.conf ∧ q.client = p.client ∧
      q.informer = p.informer ∧ Close q = .error "close of closed channel" ∧
      closeTwice p = .error "close of closed channel" := by
  have hd := New_running conf env fuel p h
  refine ⟨{ p with done := .closed }, ?_, rfl, rfl, rfl, rfl, ?_, ?_⟩
  · simp [Close, closeChan, hd]
  · simp [Close, closeChan]
  · simp [closeTwice, Close, closeChan, hd]

/-- C8 amended, at the running pool of the example. -/
theorem Close_once_then_panics_witness :
    New exampleConf exampleEnv 1 = .returned (some examplePool, none) ∧
      ∃ q, Close examplePool = .ok q ∧ q.done = .closed ∧ q.conf = examplePool.conf ∧
        q.client = examplePool.client ∧ q.informer = examplePool.informer ∧
        Close q = .error "close of closed channel" ∧
        closeTwice examplePool = .error "close of closed channel" :=
  ⟨by decide, Close_once_then_panics exampleConf exampleEnv 1 examplePool (by decide)⟩

/-- The handlers do not read the shutdown signal: `Close` changes the `done`
field only, and a handler that runs on the closed pool has the effect it has
on the pool before `Close`. -/
theorem handle_after_Close (p q : Pool) (d : Delivery) (w : World)
    (h : Close p = .ok q) : q.done = .closed ∧ handle q d w = handle p d w := by
  have hq : q = { p with done := .closed } := by
    unfold Close at h
    cases hd : p.done <;> simp [hd, closeChan] at h
    exact h.symm
  subst hq
  refine ⟨rfl, ?_⟩
  obtain ⟨ev, store⟩ := d
  cases ev <;> rfl

end K8pool
